import Mathlib

/-!
Verification of the sosistab session core against its specification.

Shallow embedding of the two source files:
  * `src/lib/sosistab/src/session.rs` — `ReplayFilter`, `RunDecoder`,
    `LossCalculator`, `loss_to_u8`, the `down_loss` expression of `stats_loop`;
  * `src/lib/sosistab/src/mux/relconn/connvars.rs` — `ConnVars` congestion state.

Modelling conventions:
  * `u64` counters and `Instant`/`Duration` values become `ℕ` (milliseconds for
    durations); Rust `saturating_sub`/`saturating_duration_since` is `ℕ`
    truncated subtraction, and the `u64` subtractions in the source are only
    reached when the minuend dominates, where `ℕ` subtraction agrees.
  * `f64` arithmetic is modelled exactly: by `ℚ` where the source only adds,
    divides and compares (loss samples, `loss_to_u8`, statistics), and by `ℝ`
    where `powf` appears (the congestion controller).  Decimal literals such as
    `0.99` denote the exact decimal, not its binary-float rounding; all claims
    checked here have tolerances far wider than that rounding error.
  * `HashMap`/`HashSet` become association lists / lists of keys.
  * The `Inflight` book (not part of the given sources) enters the congestion
    functions only through the values `srtt()` and `bdp()`; those values are
    passed as explicit parameters.
  * `while` loops become fuel recursion, with fuel an upper bound on the
    iteration count actually taken, so the embedding is executable.
-/

namespace Sosistab

/-! ## ReplayFilter (session.rs lines 273-306) -/

/-- State of `ReplayFilter`: `{ top_seqno, bottom_seqno, seen_seqno: HashSet<u64> }`.
The set is modelled as a list of ids. -/
structure ReplayFilter where
  top_seqno : ℕ
  bottom_seqno : ℕ
  seen_seqno : List ℕ
deriving DecidableEq

/-- `ReplayFilter::new(start)`. -/
def ReplayFilter.new (start : ℕ) : ReplayFilter :=
  ⟨start, start, []⟩

/-- The `while self.top_seqno - self.bottom_seqno > 1000` loop inside
`ReplayFilter::add`: remove `bottom_seqno` from the seen set and increment it.
Fuel bounds the number of iterations; `add` passes `top_seqno - bottom_seqno`,
which dominates the number of iterations the Rust loop performs. -/
def slideWindow : ℕ → ReplayFilter → ReplayFilter
  | 0, f => f
  | fuel + 1, f =>
    if 1000 < f.top_seqno - f.bottom_seqno then
      slideWindow fuel
        { f with
          seen_seqno := f.seen_seqno.erase f.bottom_seqno
          bottom_seqno := f.bottom_seqno + 1 }
    else f

/-- `ReplayFilter::add` (session.rs lines 290-305), returning the `bool`
result together with the updated filter.  Note that the source never inserts
`seqno` into `seen_seqno`. -/
def ReplayFilter.add (f : ReplayFilter) (seqno : ℕ) : Bool × ReplayFilter :=
  if seqno < f.bottom_seqno then
    (false, f)
  else if seqno ∈ f.seen_seqno then
    (false, f)
  else
    let f1 : ReplayFilter := { f with top_seqno := seqno }
    (true, slideWindow (f1.top_seqno - f1.bottom_seqno) f1)

/-- Feed a list of ids through `ReplayFilter.add`, collecting the returned
booleans in order. -/
def ReplayFilter.addAll (f : ReplayFilter) (seqnos : List ℕ) :
    List Bool × ReplayFilter :=
  seqnos.foldl (fun acc s =>
    let r := acc.2.add s
    (acc.1 ++ [r.1], r.2)) ([], f)

/-! ## loss_to_u8 (session.rs lines 308-314) -/

/-- `loss_to_u8`: multiply by 256, map anything above 254 to 255, otherwise
cast `as u8` (truncation toward zero, negatives clamped to 0 — below the 254
branch the cast cannot saturate above). -/
def loss_to_u8 (loss : ℚ) : ℕ :=
  let l := loss * 256
  if 254 < l then 255
  else (Rat.floor l).toNat

/-! ## LossCalculator (session.rs lines 316-354) -/

/-- State of `LossCalculator`; `loss_samples: VecDeque<f64>` becomes a `List ℚ`
with `push_back` = append and `pop_front` = tail. -/
structure LossCalculator where
  last_top_seqno : ℕ
  last_total_seqno : ℕ
  loss_samples : List ℚ
  median : ℚ
deriving DecidableEq

/-- `LossCalculator::new()`. -/
def LossCalculator.new : LossCalculator :=
  ⟨0, 0, [], 0⟩

/-- The retention step of `update_params`: push the new sample, then
`if len > 256 { pop_front }`. -/
def capSamples (samples : List ℚ) : List ℚ :=
  if 256 < samples.length then samples.tail else samples

/-- `LossCalculator::update_params` (session.rs lines 334-353).  When both
counters have advanced by more than 30, push the sample
`1 - Δtotal / max(Δtop, Δtotal)`, cap the deque at 256, and publish the
element at index `len / 2` of the sorted samples (the source sorts with
`sort_unstable_by(partial_cmp)` and indexes `lala[lala.len() / 2]`; the list
is nonempty in this branch, so the `getD 0` default is never consulted). -/
def LossCalculator.update_params (lc : LossCalculator)
    (top_seqno total_seqno : ℕ) : LossCalculator :=
  if lc.last_total_seqno + 30 < total_seqno ∧ lc.last_top_seqno + 30 < top_seqno then
    let delta_top : ℚ := ((top_seqno - lc.last_top_seqno : ℕ) : ℚ)
    let delta_total : ℚ := ((total_seqno - lc.last_total_seqno : ℕ) : ℚ)
    let loss_sample : ℚ := 1 - delta_total / max delta_top delta_total
    let samples := capSamples (lc.loss_samples ++ [loss_sample])
    let sorted := samples.insertionSort (· ≤ ·)
    { last_top_seqno := top_seqno
      last_total_seqno := total_seqno
      loss_samples := samples
      median := (sorted[samples.length / 2]?).getD 0 }
  else lc

/-! ## down_loss (session.rs lines 196-213, the stats_loop reply) -/

/-- The `(total_recv_frames as f64 / high_recv_frame_no as f64).min(1.0)` term
of `stats_loop`.  When `high = 0` the `f64` quotient is `+inf` (for
`total > 0`) or `NaN` (for `total = 0`); Rust `f64::min` ignores `NaN` and
`min(+inf, 1.0) = 1.0`, so in either case the term evaluates to `1`. -/
def recvRatioCapped (total high : ℕ) : ℚ :=
  if high = 0 then 1 else min ((total : ℚ) / (high : ℚ)) 1

/-- The `down_loss` field computed by `stats_loop`:
`1.0 - (total_recv_frames / high_recv_frame_no).min(1.0)`. -/
def down_loss (total high : ℕ) : ℚ :=
  1 - recvRatioCapped total high

/-- The formula the claim states for `down_loss`:
`1 - total_recv_frames / max(1, down_total)` clamped to `[0,1]`.  This
definition follows the claim's words, for comparison with `down_loss`. -/
def down_loss_claimed (total high : ℕ) : ℚ :=
  max 0 (min 1 (1 - (total : ℚ) / (max 1 high : ℕ)))

/-! ## RunDecoder (session.rs lines 219-271) -/

/-- Interface of the external FEC codec (`crate::fec::FrameDecoder`), which is
not part of the given sources.  `RunDecoder` uses exactly these four
operations: `FrameDecoder::new(data_shards, parity_shards)`,
`decode(bts, run_idx)` (which mutates the decoder and may return the decoded
batch), `good_pkts()` and `lost_pkts()`.  The window-management theorems below
are proved for every such codec. -/
structure FecModel (D : Type) where
  new : ℕ → ℕ → D
  decode : D → List ℕ → ℕ → Option (List (List ℕ)) × D
  good_pkts : D → ℕ
  lost_pkts : D → ℕ

/-- Modelled from the spec: the FEC codec collaborator `crate::fec::FrameDecoder`
is missing from the given sources; §9 of the spec describes it as a black box
constructed from `(data_shards, parity_shards)` whose `decode(shard, index)`
returns `Option<batch>`, and §4.2 consumes its good/lost packet counts.  This
concrete instance records the construction parameters and the set of shard
indices received; it is used only to run the concrete scenarios (the general
theorems hold for every `FecModel`). -/
structure FrameDecoder where
  data_shards : ℕ
  parity_shards : ℕ
  seen : List ℕ
deriving DecidableEq

/-- Modelled from the spec: a `FecModel` built from the `FrameDecoder` above;
`decode` records the shard index and reports no completed batch, `good_pkts`
counts recorded shards, `lost_pkts` is zero. -/
def specFec : FecModel FrameDecoder where
  new := fun ds ps => ⟨ds, ps, []⟩
  decode := fun d _bts idx => (none, { d with seen := idx :: d.seen })
  good_pkts := fun d => d.seen.length
  lost_pkts := fun _ => 0

/-- State of `RunDecoder` (derive-defaulted to all-zero / empty in the source);
`decoders: HashMap<u64, FrameDecoder>` becomes an association list. -/
structure RunDecoder (D : Type) where
  top_run : ℕ
  bottom_run : ℕ
  decoders : List (ℕ × D)
  total_count : ℕ
  correct_count : ℕ
  total_data_shards : ℕ
  total_parity_shards : ℕ
deriving DecidableEq

/-- `RunDecoder::default()` (from `#[derive(Default)]`). -/
def RunDecoder.default (D : Type) : RunDecoder D :=
  ⟨0, 0, [], 0, 0, 0, 0⟩

/-- One iteration of the `while self.top_run - self.bottom_run > 100` body in
`RunDecoder::input`: `decoders.remove(&bottom_run)`, accumulate the removed
decoder's good/lost packet counts, and increment `bottom_run`. -/
def evictOne {D : Type} (M : FecModel D) (rd : RunDecoder D) : RunDecoder D :=
  match rd.decoders.lookup rd.bottom_run with
  | some dec =>
    { rd with
      total_count := rd.total_count + (M.good_pkts dec + M.lost_pkts dec)
      correct_count := rd.correct_count + M.good_pkts dec
      decoders := rd.decoders.filter (fun p => p.1 != rd.bottom_run)
      bottom_run := rd.bottom_run + 1 }
  | none => { rd with bottom_run := rd.bottom_run + 1 }

/-- The `while self.top_run - self.bottom_run > 100` loop.  Fuel bounds the
iteration count; `advance` passes the current `top_run - bottom_run`, which
dominates the number of iterations the Rust loop performs (each iteration
shrinks the difference by one and the loop stops at 100). -/
def advanceLoop {D : Type} (M : FecModel D) : ℕ → RunDecoder D → RunDecoder D
  | 0, rd => rd
  | fuel + 1, rd =>
    if 100 < rd.top_run - rd.bottom_run then advanceLoop M fuel (evictOne M rd)
    else rd

/-- The `if run_no > self.top_run` block of `RunDecoder::input`: set
`top_run := run_no` and advance the bottom of the window. -/
def RunDecoder.advance {D : Type} (rd : RunDecoder D) (M : FecModel D)
    (run_no : ℕ) : RunDecoder D :=
  if rd.top_run < run_no then
    let rd1 : RunDecoder D := { rd with top_run := run_no }
    advanceLoop M (rd1.top_run - rd1.bottom_run) rd1
  else rd

/-- `RunDecoder::input` (session.rs lines 232-271).  Returns the decoded
output (if any) and the updated state.  The `decoders.entry(run_no)
.or_insert_with(...)` followed by the in-place `decode` is modelled by looking
the decoder up (or constructing it), running `decode`, and storing the
post-`decode` decoder back under `run_no`. -/
def RunDecoder.input {D : Type} (rd : RunDecoder D) (M : FecModel D)
    (run_no run_idx data_shards parity_shards : ℕ) (bts : List ℕ) :
    Option (List (List ℕ)) × RunDecoder D :=
  if rd.bottom_run ≤ run_no then
    let rd1 := rd.advance M run_no
    let dec := (rd1.decoders.lookup run_no).getD (M.new data_shards parity_shards)
    let rd2 : RunDecoder D :=
      if run_idx < data_shards then
        { rd1 with total_data_shards := rd1.total_data_shards + 1 }
      else
        { rd1 with total_parity_shards := rd1.total_parity_shards + 1 }
    let res := M.decode dec bts run_idx
    (res.1,
      { rd2 with
        decoders := (run_no, res.2) :: rd2.decoders.filter (fun p => p.1 != run_no) })
  else (none, rd)

/-- Feed ascending runs `0, 1, ..., 149` (one data shard each) into a fresh
`RunDecoder`, as in scenario S7. -/
def fecScenario : RunDecoder FrameDecoder :=
  (List.range 150).foldl
    (fun rd i => (rd.input specFec i 0 1 0 []).2)
    (RunDecoder.default FrameDecoder)

/-! ### RunDecoder window lemmas -/

theorem evictOne_top_run {D : Type} (M : FecModel D) (rd : RunDecoder D) :
    (evictOne M rd).top_run = rd.top_run := by
  unfold evictOne
  cases rd.decoders.lookup rd.bottom_run <;> rfl

theorem evictOne_bottom_run {D : Type} (M : FecModel D) (rd : RunDecoder D) :
    (evictOne M rd).bottom_run = rd.bottom_run + 1 := by
  unfold evictOne
  cases rd.decoders.lookup rd.bottom_run <;> rfl

theorem advanceLoop_top_run {D : Type} (M : FecModel D) :
    ∀ (fuel : ℕ) (rd : RunDecoder D),
      (advanceLoop M fuel rd).top_run = rd.top_run := by
  intro fuel
  induction fuel with
  | zero => intro rd; rfl
  | succ n ih =>
    intro rd
    unfold advanceLoop
    split
    · rw [ih, evictOne_top_run]
    · rfl

theorem advanceLoop_diff_le {D : Type} (M : FecModel D) :
    ∀ (fuel : ℕ) (rd : RunDecoder D),
      rd.top_run - rd.bottom_run ≤ 100 + fuel →
      (advanceLoop M fuel rd).top_run - (advanceLoop M fuel rd).bottom_run ≤ 100 := by
  intro fuel
  induction fuel with
  | zero => intro rd h; simpa [advanceLoop] using h
  | succ n ih =>
    intro rd h
    unfold advanceLoop
    split
    · refine ih _ ?_
      rw [evictOne_top_run, evictOne_bottom_run]
      omega
    · omega

theorem advanceLoop_bottom_le_top {D : Type} (M : FecModel D) :
    ∀ (fuel : ℕ) (rd : RunDecoder D),
      rd.bottom_run ≤ rd.top_run →
      (advanceLoop M fuel rd).bottom_run ≤ (advanceLoop M fuel rd).top_run := by
  intro fuel
  induction fuel with
  | zero => intro rd h; simpa [advanceLoop] using h
  | succ n ih =>
    intro rd h
    unfold advanceLoop
    split
    · refine ih _ ?_
      rw [evictOne_top_run, evictOne_bottom_run]
      omega
    · exact h

theorem advance_top_run {D : Type} (M : FecModel D) (rd : RunDecoder D)
    (run_no : ℕ) (h : rd.top_run < run_no) :
    (rd.advance M run_no).top_run = run_no := by
  unfold RunDecoder.advance
  rw [if_pos h, advanceLoop_top_run]

theorem advance_diff_le {D : Type} (M : FecModel D) (rd : RunDecoder D)
    (run_no : ℕ) (h : rd.top_run < run_no) :
    (rd.advance M run_no).top_run - (rd.advance M run_no).bottom_run ≤ 100 := by
  unfold RunDecoder.advance
  rw [if_pos h]
  exact advanceLoop_diff_le M _ _ (by omega)

theorem advance_bottom_le_top {D : Type} (M : FecModel D) (rd : RunDecoder D)
    (run_no : ℕ) (hbt : rd.bottom_run ≤ rd.top_run) :
    (rd.advance M run_no).bottom_run ≤ (rd.advance M run_no).top_run := by
  unfold RunDecoder.advance
  split
  · refine advanceLoop_bottom_le_top M _ _ ?_
    show rd.bottom_run ≤ run_no
    omega
  · exact hbt

theorem advance_preserves_window {D : Type} (M : FecModel D) (rd : RunDecoder D)
    (run_no : ℕ) (hd : rd.top_run - rd.bottom_run ≤ 100) :
    (rd.advance M run_no).top_run - (rd.advance M run_no).bottom_run ≤ 100 := by
  by_cases h : rd.top_run < run_no
  · exact advance_diff_le M rd run_no h
  · unfold RunDecoder.advance
    rw [if_neg h]
    exact hd

theorem input_below_bottom {D : Type} (M : FecModel D) (rd : RunDecoder D)
    (run_no run_idx data_shards parity_shards : ℕ) (bts : List ℕ)
    (h : run_no < rd.bottom_run) :
    rd.input M run_no run_idx data_shards parity_shards bts = (none, rd) := by
  unfold RunDecoder.input
  rw [if_neg (by omega)]

theorem input_snd_top_run {D : Type} (M : FecModel D) (rd : RunDecoder D)
    (run_no run_idx data_shards parity_shards : ℕ) (bts : List ℕ)
    (h : rd.bottom_run ≤ run_no) :
    (rd.input M run_no run_idx data_shards parity_shards bts).2.top_run =
      (rd.advance M run_no).top_run := by
  unfold RunDecoder.input
  rw [if_pos h]
  split <;> rfl

theorem input_snd_bottom_run {D : Type} (M : FecModel D) (rd : RunDecoder D)
    (run_no run_idx data_shards parity_shards : ℕ) (bts : List ℕ)
    (h : rd.bottom_run ≤ run_no) :
    (rd.input M run_no run_idx data_shards parity_shards bts).2.bottom_run =
      (rd.advance M run_no).bottom_run := by
  unfold RunDecoder.input
  rw [if_pos h]
  split <;> rfl

theorem advanceLoop_bottom_le {D : Type} (M : FecModel D) :
    ∀ (fuel : ℕ) (rd : RunDecoder D),
      rd.bottom_run ≤ (advanceLoop M fuel rd).bottom_run := by
  intro fuel
  induction fuel with
  | zero => intro rd; simp [advanceLoop]
  | succ n ih =>
    intro rd
    unfold advanceLoop
    split
    · have h1 := ih (evictOne M rd)
      rw [evictOne_bottom_run] at h1
      omega
    · omega

theorem advance_bottom_le {D : Type} (M : FecModel D) (rd : RunDecoder D)
    (run_no : ℕ) :
    rd.bottom_run ≤ (rd.advance M run_no).bottom_run := by
  unfold RunDecoder.advance
  split
  · exact advanceLoop_bottom_le M (run_no - rd.bottom_run) { rd with top_run := run_no }
  · omega

/-! ## Claim C5 — run-decoder sliding window -/

set_option maxRecDepth 10000 in
/-- C5: a frame below `bottom_run` is dropped without output; a frame above
`top_run` advances `top_run` to `run_no` and evicts decoders (accumulating
their good/lost counts) until `top_run - bottom_run ≤ 100`; the window
invariant `bottom_run ≤ top_run ∧ top_run - bottom_run ≤ 100` is preserved by
every input; and, concretely (S7), after feeding runs `0..149` in ascending
order `bottom_run = 49`, the decoder for run `40` has been evicted (its
packet counts accumulated into the totals: 49 evicted runs of one good packet
each), and a further shard with `run_no = 40` is dropped with no state
change. -/
theorem rundecoder_window {D : Type} (M : FecModel D) (rd : RunDecoder D)
    (run_no run_idx data_shards parity_shards : ℕ) (bts : List ℕ) :
    (run_no < rd.bottom_run →
      rd.input M run_no run_idx data_shards parity_shards bts = (none, rd))
    ∧ (rd.bottom_run ≤ rd.top_run → rd.top_run < run_no →
      (rd.input M run_no run_idx data_shards parity_shards bts).2.top_run = run_no
      ∧ (rd.input M run_no run_idx data_shards parity_shards bts).2.top_run
          - (rd.input M run_no run_idx data_shards parity_shards bts).2.bottom_run ≤ 100
      ∧ rd.bottom_run ≤ (rd.input M run_no run_idx data_shards parity_shards bts).2.bottom_run)
    ∧ (rd.bottom_run ≤ rd.top_run → rd.top_run - rd.bottom_run ≤ 100 →
      (rd.input M run_no run_idx data_shards parity_shards bts).2.bottom_run
          ≤ (rd.input M run_no run_idx data_shards parity_shards bts).2.top_run
      ∧ (rd.input M run_no run_idx data_shards parity_shards bts).2.top_run
          - (rd.input M run_no run_idx data_shards parity_shards bts).2.bottom_run ≤ 100)
    ∧ (∀ d, rd.decoders.lookup rd.bottom_run = some d →
      (evictOne M rd).total_count = rd.total_count + (M.good_pkts d + M.lost_pkts d)
      ∧ (evictOne M rd).correct_count = rd.correct_count + M.good_pkts d
      ∧ (evictOne M rd).bottom_run = rd.bottom_run + 1)
    ∧ (fecScenario.bottom_run = 49
      ∧ fecScenario.top_run = 149
      ∧ fecScenario.decoders.lookup 40 = none
      ∧ fecScenario.input specFec 40 0 1 0 [] = (none, fecScenario)
      ∧ fecScenario.total_count = 49) := by
  refine ⟨?_, ?_, ?_, ?_, ?_⟩
  · intro h
    exact input_below_bottom M rd run_no run_idx data_shards parity_shards bts h
  · intro hbt htop
    have hble : rd.bottom_run ≤ run_no := by omega
    rw [input_snd_top_run M rd _ _ _ _ _ hble, input_snd_bottom_run M rd _ _ _ _ _ hble]
    refine ⟨advance_top_run M rd run_no htop, ?_, advance_bottom_le M rd run_no⟩
    have := advance_diff_le M rd run_no htop
    rw [advance_top_run M rd run_no htop] at this ⊢
    exact this
  · intro hbt hd
    by_cases hble : rd.bottom_run ≤ run_no
    · rw [input_snd_top_run M rd _ _ _ _ _ hble, input_snd_bottom_run M rd _ _ _ _ _ hble]
      exact ⟨advance_bottom_le_top M rd run_no hbt,
        advance_preserves_window M rd run_no hd⟩
    · rw [input_below_bottom M rd run_no run_idx data_shards parity_shards bts (by omega)]
      exact ⟨hbt, hd⟩
  · intro d hlook
    unfold evictOne
    rw [hlook]
    exact ⟨rfl, rfl, rfl⟩
  · decide

/-- Witness for `rundecoder_window`: instantiate it at the concrete codec
model and a concrete state with `top_run = 5`, `bottom_run = 3`, and discharge
its hypotheses there. -/
theorem rundecoder_window_witness :
    ((⟨5, 3, [], 0, 0, 0, 0⟩ : RunDecoder FrameDecoder).input specFec 2 0 1 0 []
      = (none, (⟨5, 3, [], 0, 0, 0, 0⟩ : RunDecoder FrameDecoder)))
    ∧ ((⟨5, 3, [], 0, 0, 0, 0⟩ : RunDecoder FrameDecoder).input specFec 300 0 1 0 []).2.top_run = 300
    ∧ ((⟨5, 3, [], 0, 0, 0, 0⟩ : RunDecoder FrameDecoder).input specFec 7 0 1 0 []).2.top_run
        - ((⟨5, 3, [], 0, 0, 0, 0⟩ : RunDecoder FrameDecoder).input specFec 7 0 1 0 []).2.bottom_run ≤ 100 := by
  refine ⟨?_, ?_, ?_⟩
  · exact (rundecoder_window specFec ⟨5, 3, [], 0, 0, 0, 0⟩ 2 0 1 0 []).1 (by decide)
  · exact ((rundecoder_window specFec ⟨5, 3, [], 0, 0, 0, 0⟩ 300 0 1 0 []).2.1
      (by decide) (by decide)).1
  · exact ((rundecoder_window specFec ⟨5, 3, [], 0, 0, 0, 0⟩ 7 0 1 0 []).2.2.1
      (by decide) (by decide)).2

/-! ## Claim C10 — stale-run drop is effect-free -/

/-- C10: for every decoder state and every frame whose `run_no` is strictly
below `bottom_run`, `RunDecoder::input` returns no output and leaves the whole
state (window, decoder map and all four counters) unchanged. -/
theorem input_stale_run_noop {D : Type} (M : FecModel D) (rd : RunDecoder D)
    (run_no run_idx data_shards parity_shards : ℕ) (bts : List ℕ)
    (h : run_no < rd.bottom_run) :
    rd.input M run_no run_idx data_shards parity_shards bts = (none, rd)
    ∧ (rd.input M run_no run_idx data_shards parity_shards bts).2.top_run = rd.top_run
    ∧ (rd.input M run_no run_idx data_shards parity_shards bts).2.bottom_run = rd.bottom_run
    ∧ (rd.input M run_no run_idx data_shards parity_shards bts).2.decoders = rd.decoders
    ∧ (rd.input M run_no run_idx data_shards parity_shards bts).2.total_count = rd.total_count
    ∧ (rd.input M run_no run_idx data_shards parity_shards bts).2.correct_count = rd.correct_count
    ∧ (rd.input M run_no run_idx data_shards parity_shards bts).2.total_data_shards = rd.total_data_shards
    ∧ (rd.input M run_no run_idx data_shards parity_shards bts).2.total_parity_shards = rd.total_parity_shards := by
  have he := input_below_bottom M rd run_no run_idx data_shards parity_shards bts h
  rw [he]
  exact ⟨rfl, rfl, rfl, rfl, rfl, rfl, rfl, rfl⟩

/-- Witness for `input_stale_run_noop` at a concrete state (`bottom_run = 9`)
and a concrete stale frame (`run_no = 4`). -/
theorem input_stale_run_noop_witness :
    (⟨20, 9, [], 1, 2, 3, 4⟩ : RunDecoder FrameDecoder).input specFec 4 0 2 1 [7]
      = (none, (⟨20, 9, [], 1, 2, 3, 4⟩ : RunDecoder FrameDecoder)) :=
  (input_stale_run_noop specFec ⟨20, 9, [], 1, 2, 3, 4⟩ 4 0 2 1 [7] (by decide)).1

/-! ## ConnVars congestion state (connvars.rs lines 9-99)

Only the congestion-relevant fields are modelled; the networking queues
(`pre_inflight`, `inflight`, reorderer, ack set, ...) do not appear in
`congestion_ack` / `congestion_loss` except through the `Inflight` readings
`srtt()` and `bdp()`, which are passed as parameters (`srtt` in milliseconds,
`bdp` a real).  `Instant::now()` becomes the `now` parameter. -/

structure ConnVars where
  slow_start : Bool
  cwnd : ℝ
  last_loss : ℕ
  flights : ℕ
  last_flight : ℕ
  loss_rate : ℝ

/-- `ConnVars::default()`: `slow_start = true`, `cwnd = 128.0`,
`last_loss = last_flight = now` (taken as instant `0`), `flights = 0`,
`loss_rate = 0.0`. -/
def ConnVars.default : ConnVars :=
  ⟨true, 128, 0, 0, 0, 0⟩

/-- `ConnVars::cwnd_target`: `(self.inflight.bdp() * 1.5).min(10000.0).max(16.0)`,
with the `bdp` reading passed in. -/
noncomputable def ConnVars.cwnd_target (bdp : ℝ) : ℝ :=
  max (min (bdp * 1.5) 10000) 16

/-- `ConnVars::congestion_ack` (connvars.rs lines 71-80): decay `loss_rate`
by 0.99, grow `cwnd` by `max(0.23 * cwnd^0.4, 1) * 8 / cwnd`, and bump the
`flights` diagnostic when more than `srtt` elapsed since `last_flight`. -/
noncomputable def ConnVars.congestion_ack (cv : ConnVars) (now srtt : ℕ) : ConnVars :=
  if srtt < now - cv.last_flight then
    { cv with
      loss_rate := cv.loss_rate * 0.99
      cwnd := cv.cwnd + max (0.23 * cv.cwnd ^ (0.4 : ℝ)) 1 * 8 / cv.cwnd
      flights := cv.flights + 1
      last_flight := now }
  else
    { cv with
      loss_rate := cv.loss_rate * 0.99
      cwnd := cv.cwnd + max (0.23 * cv.cwnd ^ (0.4 : ℝ)) 1 * 8 / cv.cwnd }

/-- `ConnVars::congestion_loss` (connvars.rs lines 82-98): latch
`slow_start` off, update `loss_rate` by the EWMA `0.99·loss_rate + 0.01`, and
— only when more than `2·srtt` elapsed since `last_loss` — reduce `cwnd` to
`min(cwnd, max(cwnd·0.5, bdp))` and stamp `last_loss = now`.  (In the source
the `slow_start`/`loss_rate` updates precede the conditional; the net state
is the same.) -/
noncomputable def ConnVars.congestion_loss (cv : ConnVars) (now srtt : ℕ)
    (bdp : ℝ) : ConnVars :=
  if srtt * 2 < now - cv.last_loss then
    { cv with
      slow_start := false
      loss_rate := cv.loss_rate * 0.99 + 0.01
      cwnd := min cv.cwnd (max (cv.cwnd * 0.5) bdp)
      last_loss := now }
  else
    { cv with
      slow_start := false
      loss_rate := cv.loss_rate * 0.99 + 0.01 }

/-! ## Claim C2 — cwnd bounds -/

/-- Counterexample to C2: starting from `ConnVars::default()` (`cwnd = 128`)
and applying four debounced `congestion_loss` events (1 second apart,
`srtt = 100 ms`, `bdp = 0`), the congestion window halves each time:
`64, 32, 16, 8`.  After the fourth update `cwnd = 8 < 16`, so the claimed
invariant `16 ≤ cwnd` after every update is false — no clamp is applied to
`cwnd` by the update functions. -/
theorem cwnd_bounds_counterexample :
    ((((ConnVars.default.congestion_loss 1000 100 0).congestion_loss 2000 100 0
        ).congestion_loss 3000 100 0).congestion_loss 4000 100 0).cwnd < 16 := by
  norm_num [ConnVars.congestion_loss, ConnVars.default, min_def, max_def]

/-- C2 (amended): the `[16, 10000]` clamp in the code applies to the advisory
`cwnd_target`, not to `cwnd`: for every `bdp` reading,
`16 ≤ cwnd_target ≤ 10000`.  `cwnd` itself is unclamped (see the
counterexample); `congestion_loss` never increases it. -/
theorem cwnd_target_bounds (bdp : ℝ) (cv : ConnVars) (now srtt : ℕ) (bdp2 : ℝ) :
    (16 ≤ ConnVars.cwnd_target bdp ∧ ConnVars.cwnd_target bdp ≤ 10000)
    ∧ (cv.congestion_loss now srtt bdp2).cwnd ≤ cv.cwnd := by
  constructor
  · constructor
    · exact le_max_right _ _
    · exact max_le (le_trans (min_le_right _ _) (by norm_num)) (by norm_num)
  · unfold ConnVars.congestion_loss
    split
    · exact min_le_left _ _
    · exact le_refl _

/-! ## Claim C4 — cwnd growth on ack -/

theorem rpow_128_04_pow_five : ((128 : ℝ) ^ (0.4 : ℝ)) ^ (5 : ℕ) = 16384 := by
  rw [← Real.rpow_natCast ((128 : ℝ) ^ (0.4 : ℝ)) 5,
    ← Real.rpow_mul (by norm_num : (0 : ℝ) ≤ 128)]
  have h2 : ((0.4 : ℝ) * (5 : ℕ)) = ((2 : ℕ) : ℝ) := by norm_num
  rw [h2, Real.rpow_natCast]
  norm_num

theorem rpow_128_04_lb : (5.6 : ℝ) ≤ (128 : ℝ) ^ (0.4 : ℝ) := by
  by_contra h
  push_neg at h
  have h5 : ((128 : ℝ) ^ (0.4 : ℝ)) ^ (5 : ℕ) ≤ (5.6 : ℝ) ^ (5 : ℕ) :=
    pow_le_pow_left₀ (le_of_lt (Real.rpow_pos_of_pos (by norm_num) _)) (le_of_lt h) 5
  rw [rpow_128_04_pow_five] at h5
  norm_num at h5

theorem rpow_128_04_ub : (128 : ℝ) ^ (0.4 : ℝ) ≤ 7 := by
  by_contra h
  push_neg at h
  have h5 : (7 : ℝ) ^ (5 : ℕ) ≤ ((128 : ℝ) ^ (0.4 : ℝ)) ^ (5 : ℕ) :=
    pow_le_pow_left₀ (by norm_num) (le_of_lt h) 5
  rw [rpow_128_04_pow_five] at h5
  norm_num at h5

/-- C4: every `congestion_ack` multiplies `loss_rate` by 0.99 and adds
exactly `max(0.23·cwnd^0.4, 1) · 8 / cwnd` to `cwnd`; from `cwnd = 128` the
new window lies in `[128.08, 128.12]` (the increment is
`0.23·128^0.4/16 ≈ 0.1`). -/
theorem congestion_ack_growth (cv : ConnVars) (now srtt : ℕ) :
    (cv.congestion_ack now srtt).loss_rate = cv.loss_rate * 0.99
    ∧ (cv.congestion_ack now srtt).cwnd
        = cv.cwnd + max (0.23 * cv.cwnd ^ (0.4 : ℝ)) 1 * 8 / cv.cwnd
    ∧ (cv.cwnd = 128 →
        128.08 ≤ (cv.congestion_ack now srtt).cwnd
        ∧ (cv.congestion_ack now srtt).cwnd ≤ 128.12) := by
  have hproj : (cv.congestion_ack now srtt).loss_rate = cv.loss_rate * 0.99
      ∧ (cv.congestion_ack now srtt).cwnd
        = cv.cwnd + max (0.23 * cv.cwnd ^ (0.4 : ℝ)) 1 * 8 / cv.cwnd := by
    unfold ConnVars.congestion_ack
    split <;> exact ⟨rfl, rfl⟩
  refine ⟨hproj.1, hproj.2, ?_⟩
  intro h128
  have hlb := rpow_128_04_lb
  have hub := rpow_128_04_ub
  have hmax : max (0.23 * (128 : ℝ) ^ (0.4 : ℝ)) 1 = 0.23 * (128 : ℝ) ^ (0.4 : ℝ) :=
    max_eq_left (by nlinarith)
  rw [hproj.2, h128, hmax]
  constructor <;> nlinarith

/-- Witness for `congestion_ack_growth`: the concrete bound at
`cwnd = 128` (the default state), `now = 5`, `srtt = 3`. -/
theorem congestion_ack_growth_witness :
    128.08 ≤ (ConnVars.default.congestion_ack 5 3).cwnd
    ∧ (ConnVars.default.congestion_ack 5 3).cwnd ≤ 128.12 :=
  (congestion_ack_growth ConnVars.default 5 3).2.2 rfl

/-! ## Claim C3 — loss-event debounce -/

/-- The S4 starting state: `cwnd = 200`, last loss long ago (instant 0). -/
def lossScenario0 : ConnVars :=
  ⟨true, 200, 0, 0, 0, 0⟩

/-- C3: `congestion_loss` reduces `cwnd` to `min(cwnd, max(cwnd·0.5, bdp))`
and stamps `last_loss` exactly when `now - last_loss > 2·srtt`, otherwise
leaves `cwnd` and `last_loss` unchanged; either way it updates `loss_rate` to
`0.99·loss_rate + 0.01` (and latches `slow_start` off).  Hence a second loss
within `2·srtt` of a cwnd-reducing one changes nothing about `cwnd`.
Concretely (S4, `cwnd = 200`, `bdp = 40`, `srtt = 100 ms`): losses at
`t = 1000`, `t = 1050` (+50 ms) and `t = 1300` (+300 ms) leave `cwnd` at
`100`, `100`, `50`. -/
theorem congestion_loss_debounce (cv : ConnVars) (now now2 srtt : ℕ)
    (bdp bdp2 : ℝ) :
    (srtt * 2 < now - cv.last_loss →
      (cv.congestion_loss now srtt bdp).cwnd = min cv.cwnd (max (cv.cwnd * 0.5) bdp)
      ∧ (cv.congestion_loss now srtt bdp).last_loss = now)
    ∧ (¬ srtt * 2 < now - cv.last_loss →
      (cv.congestion_loss now srtt bdp).cwnd = cv.cwnd
      ∧ (cv.congestion_loss now srtt bdp).last_loss = cv.last_loss)
    ∧ (cv.congestion_loss now srtt bdp).loss_rate = cv.loss_rate * 0.99 + 0.01
    ∧ (cv.congestion_loss now srtt bdp).slow_start = false
    ∧ (srtt * 2 < now - cv.last_loss → now2 - now ≤ srtt * 2 →
      ((cv.congestion_loss now srtt bdp).congestion_loss now2 srtt bdp2).cwnd
        = (cv.congestion_loss now srtt bdp).cwnd)
    ∧ ((lossScenario0.congestion_loss 1000 100 40).cwnd = 100
      ∧ ((lossScenario0.congestion_loss 1000 100 40).congestion_loss 1050 100 40).cwnd = 100
      ∧ (((lossScenario0.congestion_loss 1000 100 40).congestion_loss 1050 100 40
          ).congestion_loss 1300 100 40).cwnd = 50) := by
  refine ⟨?_, ?_, ?_, ?_, ?_, ?_⟩
  · intro h
    unfold ConnVars.congestion_loss
    rw [if_pos h]
    exact ⟨rfl, rfl⟩
  · intro h
    unfold ConnVars.congestion_loss
    rw [if_neg h]
    exact ⟨rfl, rfl⟩
  · unfold ConnVars.congestion_loss
    split <;> rfl
  · unfold ConnVars.congestion_loss
    split <;> rfl
  · intro h1 h2
    set cv1 := cv.congestion_loss now srtt bdp with hcv1
    have hstamp : cv1.last_loss = now := by
      rw [hcv1]
      unfold ConnVars.congestion_loss
      rw [if_pos h1]
    show (cv1.congestion_loss now2 srtt bdp2).cwnd = cv1.cwnd
    unfold ConnVars.congestion_loss
    rw [if_neg (by rw [hstamp]; omega)]
  · refine ⟨?_, ?_, ?_⟩ <;>
      norm_num [ConnVars.congestion_loss, lossScenario0, min_def, max_def]

/-- Witness for `congestion_loss_debounce`, at the S4 state: the first loss
(at `t = 1000`, `srtt = 100`, `bdp = 40`) takes the reduce branch, and a
second loss 50 ms later is debounced. -/
theorem congestion_loss_debounce_witness :
    ((lossScenario0.congestion_loss 1000 100 40).cwnd
        = min lossScenario0.cwnd (max (lossScenario0.cwnd * 0.5) 40))
    ∧ ((lossScenario0.congestion_loss 1000 100 40).congestion_loss 1050 100 40).cwnd
        = (lossScenario0.congestion_loss 1000 100 40).cwnd := by
  constructor
  · exact ((congestion_loss_debounce lossScenario0 1000 1050 100 40 40).1
      (by norm_num [lossScenario0])).1
  · exact (congestion_loss_debounce lossScenario0 1000 1050 100 40 40).2.2.2.2.1
      (by norm_num [lossScenario0]) (by norm_num)

/-! ## Claim C6 — loss estimator sampling -/

/-- The S2 feed: `(high, total)` pairs `(0,0), (100,80), (200,150), (300,220)`
into a fresh `LossCalculator`. -/
def lossScenarioLC : LossCalculator :=
  (((LossCalculator.new.update_params 0 0).update_params 100 80
    ).update_params 200 150).update_params 300 220

theorem capSamples_length_le (s : List ℚ) (h : s.length ≤ 257) :
    (capSamples s).length ≤ 256 := by
  unfold capSamples
  split
  · rename_i hgt
    simp only [List.length_tail]
    omega
  · rename_i hle
    omega

theorem update_params_of_cond (lc : LossCalculator) (top total : ℕ)
    (h1 : lc.last_total_seqno + 30 < total) (h2 : lc.last_top_seqno + 30 < top) :
    (lc.update_params top total).loss_samples =
      capSamples (lc.loss_samples ++
        [1 - ((total - lc.last_total_seqno : ℕ) : ℚ) /
          max ((top - lc.last_top_seqno : ℕ) : ℚ)
            ((total - lc.last_total_seqno : ℕ) : ℚ)]) := by
  unfold LossCalculator.update_params
  rw [if_pos ⟨h1, h2⟩]

theorem update_params_of_not_cond (lc : LossCalculator) (top total : ℕ)
    (h : ¬(lc.last_total_seqno + 30 < total ∧ lc.last_top_seqno + 30 < top)) :
    lc.update_params top total = lc := by
  unfold LossCalculator.update_params
  rw [if_neg h]

/-- C6: `update_params` changes the state only when both counters have
advanced by at least 30 (the code in fact requires strictly more than 30);
the emitted sample is `1 - Δtotal / max(Δhigh, Δtotal)`; at most 256 samples
are retained; and on the S2 feed the published median is `0.3`, within
`0.05` of `0.25`. -/
theorem loss_calculator_sampling (lc : LossCalculator) (top total : ℕ) :
    (lc.update_params top total ≠ lc →
      lc.last_top_seqno + 30 ≤ top ∧ lc.last_total_seqno + 30 ≤ total)
    ∧ (lc.last_total_seqno + 30 < total → lc.last_top_seqno + 30 < top →
      (lc.update_params top total).loss_samples =
        capSamples (lc.loss_samples ++
          [1 - ((total - lc.last_total_seqno : ℕ) : ℚ) /
            max ((top - lc.last_top_seqno : ℕ) : ℚ)
              ((total - lc.last_total_seqno : ℕ) : ℚ)]))
    ∧ (lc.loss_samples.length ≤ 256 →
      (lc.update_params top total).loss_samples.length ≤ 256)
    ∧ (lossScenarioLC.median = 0.3 ∧ |lossScenarioLC.median - 0.25| ≤ 0.05) := by
  refine ⟨?_, ?_, ?_, ?_⟩
  · intro hne
    by_cases hc : lc.last_total_seqno + 30 < total ∧ lc.last_top_seqno + 30 < top
    · omega
    · exact absurd (update_params_of_not_cond lc top total hc) hne
  · intro h1 h2
    exact update_params_of_cond lc top total h1 h2
  · intro hlen
    by_cases hc : lc.last_total_seqno + 30 < total ∧ lc.last_top_seqno + 30 < top
    · rw [update_params_of_cond lc top total hc.1 hc.2]
      refine capSamples_length_le _ ?_
      simp only [List.length_append, List.length_singleton]
      omega
    · rw [update_params_of_not_cond lc top total hc]
      exact hlen
  · constructor <;>
      norm_num [lossScenarioLC, LossCalculator.update_params, LossCalculator.new,
        capSamples, List.insertionSort, List.orderedInsert, max_def, abs]

/-- Witness for `loss_calculator_sampling`: the first accepted sample of the
S2 feed, at `lc = new`, `(high, total) = (100, 80)`. -/
theorem loss_calculator_sampling_witness :
    (LossCalculator.new.update_params 100 80).loss_samples =
      capSamples (LossCalculator.new.loss_samples ++
        [1 - ((80 - LossCalculator.new.last_total_seqno : ℕ) : ℚ) /
          max ((100 - LossCalculator.new.last_top_seqno : ℕ) : ℚ)
            ((80 - LossCalculator.new.last_total_seqno : ℕ) : ℚ)]) :=
  (loss_calculator_sampling LossCalculator.new 100 80).2.1 (by decide) (by decide)

/-! ## Claim C9 — loss samples lie in [0, 1] -/

/-- All retained loss samples lie in `[0, 1]`. -/
def SamplesInRange (lc : LossCalculator) : Prop :=
  ∀ x ∈ lc.loss_samples, 0 ≤ x ∧ x ≤ 1

theorem loss_sample_range (lc : LossCalculator) (top total : ℕ)
    (h1 : lc.last_total_seqno + 30 < total) :
    0 ≤ (1 - ((total - lc.last_total_seqno : ℕ) : ℚ) /
          max ((top - lc.last_top_seqno : ℕ) : ℚ)
            ((total - lc.last_total_seqno : ℕ) : ℚ))
    ∧ (1 - ((total - lc.last_total_seqno : ℕ) : ℚ) /
          max ((top - lc.last_top_seqno : ℕ) : ℚ)
            ((total - lc.last_total_seqno : ℕ) : ℚ)) ≤ 1 := by
  have hdtot : (0 : ℚ) < ((total - lc.last_total_seqno : ℕ) : ℚ) := by
    have : 0 < total - lc.last_total_seqno := by omega
    exact_mod_cast this
  have hmax : (0 : ℚ) < max ((top - lc.last_top_seqno : ℕ) : ℚ)
      ((total - lc.last_total_seqno : ℕ) : ℚ) :=
    lt_of_lt_of_le hdtot (le_max_right _ _)
  have hratio1 : ((total - lc.last_total_seqno : ℕ) : ℚ) /
      max ((top - lc.last_top_seqno : ℕ) : ℚ)
        ((total - lc.last_total_seqno : ℕ) : ℚ) ≤ 1 :=
    (div_le_one hmax).mpr (le_max_right _ _)
  have hratio0 : 0 < ((total - lc.last_total_seqno : ℕ) : ℚ) /
      max ((top - lc.last_top_seqno : ℕ) : ℚ)
        ((total - lc.last_total_seqno : ℕ) : ℚ) :=
    div_pos hdtot hmax
  constructor <;> linarith

theorem update_params_preserves_range (lc : LossCalculator) (top total : ℕ)
    (h : SamplesInRange lc) : SamplesInRange (lc.update_params top total) := by
  by_cases hc : lc.last_total_seqno + 30 < total ∧ lc.last_top_seqno + 30 < top
  · intro x hx
    rw [update_params_of_cond lc top total hc.1 hc.2] at hx
    have hx2 : x ∈ lc.loss_samples ++
        [1 - ((total - lc.last_total_seqno : ℕ) : ℚ) /
          max ((top - lc.last_top_seqno : ℕ) : ℚ)
            ((total - lc.last_total_seqno : ℕ) : ℚ)] := by
      unfold capSamples at hx
      split at hx
      · exact List.mem_of_mem_tail hx
      · exact hx
    rcases List.mem_append.mp hx2 with hmem | hmem
    · exact h x hmem
    · rw [List.mem_singleton.mp hmem]
      exact loss_sample_range lc top total hc.1
  · rw [update_params_of_not_cond lc top total hc]
    exact h

theorem foldl_update_params_range (inputs : List (ℕ × ℕ)) :
    ∀ lc : LossCalculator, SamplesInRange lc →
      SamplesInRange
        (inputs.foldl (fun a p => a.update_params p.1 p.2) lc) := by
  induction inputs with
  | nil => intro lc h; exact h
  | cons p rest ih =>
    intro lc h
    exact ih _ (update_params_preserves_range lc p.1 p.2 h)

/-- C9: every retained loss sample is in `[0, 1]` — `update_params` preserves
this, and it holds after any sequence of `u64` counter inputs from a fresh
calculator; moreover whenever a sample is accepted its denominator
`max(Δhigh, Δtotal)` is strictly positive (so the quotient is a well-defined
finite value, never `0/0`, and the sort comparison never sees a `NaN`). -/
theorem loss_samples_in_range (lc : LossCalculator) (top total : ℕ)
    (inputs : List (ℕ × ℕ)) :
    (SamplesInRange lc → SamplesInRange (lc.update_params top total))
    ∧ SamplesInRange
        (inputs.foldl (fun a p => a.update_params p.1 p.2) LossCalculator.new)
    ∧ (lc.last_total_seqno + 30 < total →
      (0 : ℚ) < max ((top - lc.last_top_seqno : ℕ) : ℚ)
        ((total - lc.last_total_seqno : ℕ) : ℚ)) := by
  refine ⟨update_params_preserves_range lc top total, ?_, ?_⟩
  · refine foldl_update_params_range inputs LossCalculator.new ?_
    intro x hx
    simp [LossCalculator.new] at hx
  · intro h1
    have hdtot : (0 : ℚ) < ((total - lc.last_total_seqno : ℕ) : ℚ) := by
      have : 0 < total - lc.last_total_seqno := by omega
      exact_mod_cast this
    exact lt_of_lt_of_le hdtot (le_max_right _ _)

/-- Witness for `loss_samples_in_range`: the fresh calculator fed `(100, 80)`
has all samples in range, and the accepted sample's denominator is positive. -/
theorem loss_samples_in_range_witness :
    SamplesInRange (LossCalculator.new.update_params 100 80)
    ∧ (0 : ℚ) < max ((100 - LossCalculator.new.last_top_seqno : ℕ) : ℚ)
        ((80 - LossCalculator.new.last_total_seqno : ℕ) : ℚ) :=
  ⟨(loss_samples_in_range LossCalculator.new 100 80 []).1
      (by intro x hx; simp [LossCalculator.new] at hx),
    (loss_samples_in_range LossCalculator.new 100 80 []).2.2 (by decide)⟩

/-! ## Claim C7 — down_loss statistic -/

/-- Counterexample to C7: in the state where no frame has ever been received
(`total_recv_frames = 0`, `down_total = high_recv_frame_no = 0`) the code
computes `down_loss = 1 - min(0/0, 1) = 1 - 1 = 0` under `f64` semantics,
while the claimed formula `1 - total/max(1, down_total)` clamped to `[0,1]`
gives `1 - 0/1 = 1`.  The code has no `max(1, ·)` guard on the divisor. -/
theorem down_loss_zero_counterexample :
    down_loss 0 0 = 0 ∧ down_loss_claimed 0 0 = 1
    ∧ down_loss 0 0 ≠ down_loss_claimed 0 0 := by
  norm_num [down_loss, down_loss_claimed, recvRatioCapped]

/-- C7 (amended): `down_loss` is always a well-defined value in `[0, 1]`, and
it agrees with the claimed formula `1 - total/max(1, down_total)` clamped to
`[0,1]` whenever at least one frame number has been observed
(`down_total ≥ 1`); in the never-received state (`down_total = 0`) it is `0`
rather than the claimed `1`, because the division is by `down_total` itself
and `f64` `min` absorbs the resulting `NaN`/`+inf` to `1`. -/
theorem down_loss_amended (total high : ℕ) :
    0 ≤ down_loss total high
    ∧ down_loss total high ≤ 1
    ∧ (1 ≤ high → down_loss total high = down_loss_claimed total high)
    ∧ down_loss total 0 = 0 := by
  have hnn : (0 : ℚ) ≤ (total : ℚ) / (high : ℚ) :=
    div_nonneg (Nat.cast_nonneg _) (Nat.cast_nonneg _)
  refine ⟨?_, ?_, ?_, ?_⟩
  · unfold down_loss recvRatioCapped
    split
    · norm_num
    · have : min ((total : ℚ) / (high : ℚ)) 1 ≤ 1 := min_le_right _ _
      linarith
  · unfold down_loss recvRatioCapped
    split
    · norm_num
    · have : (0 : ℚ) ≤ min ((total : ℚ) / (high : ℚ)) 1 := le_min hnn (by norm_num)
      linarith
  · intro hhigh
    unfold down_loss recvRatioCapped down_loss_claimed
    rw [if_neg (by omega), Nat.max_eq_right hhigh]
    rcases le_total ((total : ℚ) / (high : ℚ)) 1 with hle | hge
    · rw [min_eq_left hle, min_eq_right (by linarith), max_eq_right (by linarith)]
    · rw [min_eq_right hge, max_eq_left (le_trans (min_le_right _ _) (by linarith))]
      norm_num
  · unfold down_loss recvRatioCapped
    norm_num

/-- Witness for `down_loss_amended`: at `total = 1`, `high = 4` the code's
`down_loss` equals the claimed clamped formula, and it is nonnegative. -/
theorem down_loss_amended_witness :
    down_loss 1 4 = down_loss_claimed 1 4 ∧ 0 ≤ down_loss 1 4 :=
  ⟨(down_loss_amended 1 4).2.2.1 (by norm_num), (down_loss_amended 1 4).1⟩

/-! ## Claim C1 — replay filter -/

/-- C1: the claim expects `ReplayFilter.add` on `5, 7, 7, 6, 5, 1010, 9, 11`
from the empty filter to return `T, T, F, T, F, T, F, T`.  The code as written
never inserts ids into `seen_seqno`, so the repeated `7` and the repeated `5`
are admitted: the actual outputs are `T, T, T, T, T, T, F, T`.  This theorem
evaluates the embedded code at that failing input (the below-floor `9` is the
only rejection). -/
theorem replay_filter_s1_eval :
    ((ReplayFilter.new 0).addAll [5, 7, 7, 6, 5, 1010, 9, 11]).1 =
      [true, true, true, true, true, true, false, true] ∧
    ((ReplayFilter.new 0).addAll [5, 7, 7, 6, 5, 1010, 9, 11]).1 ≠
      [true, true, false, true, false, true, false, true] := by
  constructor
  · rfl
  · decide

/-! ## Claim C8 — loss_to_u8 quantisation -/

/-- C8: `loss_to_u8` maps `0.0, 0.5, 0.99, 1.0` to `0, 128, 253, 255`. -/
theorem loss_to_u8_s3 :
    loss_to_u8 0 = 0 ∧ loss_to_u8 0.5 = 128 ∧
    loss_to_u8 0.99 = 253 ∧ loss_to_u8 1 = 255 := by
  refine ⟨?_, ?_, ?_, ?_⟩ <;> norm_num [loss_to_u8, Rat.floor, Int.toNat]

end Sosistab
